import Mathlib

/-!
# Verification of the Car-Showroom JSON-store backend

Shallow embedding of `backend/app.py`: the JSON-file record store
(load / save / id allocation), the car list filter, the booking
validator, the mutating operations (add / update / delete) and the
statistics aggregator, together with theorems settling the spec claims.

Modelling conventions:
* Python strings are Lean `String`s; `str.lower`, `str.strip`,
  `str.isdigit` are modelled on the ASCII fragment (`Char.toLower`,
  `Char.isWhitespace`, `Char.isDigit`), which is exact for the ASCII
  data this backend handles.
* A Python dict is an insertion-ordered association list
  (`List (String × α)`) with `dictGet` / `dictSet` giving the read and
  the overwrite-or-append write of a dict.
* Fallible file I/O is a `FileRead` value enumerating the outcomes the
  code distinguishes (readable content, missing file, JSON decode
  failure, I/O error).
-/

set_option autoImplicit false

namespace CarShowroom

/-! ## Python string primitives (ASCII model) -/

/-- `s.lower()`: lower-case every character. -/
def pyLower (s : String) : String :=
  String.mk (s.toList.map Char.toLower)

/-- Drop whitespace from both ends of a character list. -/
def stripL (l : List Char) : List Char :=
  ((l.dropWhile Char.isWhitespace).reverse.dropWhile Char.isWhitespace).reverse

/-- `s.strip()`: drop leading and trailing whitespace. -/
def pyStrip (s : String) : String :=
  String.mk (stripL s.toList)

/-- `s.replace('-', '').replace(' ', '')`: remove every hyphen and space. -/
def cleanPhone (s : String) : String :=
  String.mk (s.toList.filter (fun c => c != '-' && c != ' '))

/-- `s.isdigit()`: non-empty and every character a digit. -/
def pyIsdigit (s : String) : Bool :=
  !s.toList.isEmpty && s.toList.all Char.isDigit

/-- `'@' in s`. -/
def containsAt (s : String) : Bool :=
  s.toList.contains '@'

/-- Is `needle` a prefix of `hay`? -/
def isPrefixL : List Char → List Char → Bool
  | [], _ => true
  | _ :: _, [] => false
  | a :: as, b :: bs => a == b && isPrefixL as bs

/-- Does `hay` contain `needle` as a contiguous substring? -/
def hasInfixL (hay needle : List Char) : Bool :=
  if isPrefixL needle hay then true
  else
    match hay with
    | [] => false
    | _ :: t => hasInfixL t needle

/-- Python `needle in hay` on strings. -/
def pyInStr (needle hay : String) : Bool :=
  hasInfixL hay.toList needle.toList

/-! ## Python dicts as insertion-ordered association lists -/

/-- `d.get(k)` / `d[k]`: value of the first entry with key `k`. -/
def dictGet {α : Type} : List (String × α) → String → Option α
  | [], _ => none
  | p :: t, k => if p.1 == k then some p.2 else dictGet t k

/-- `d[k] = v`: overwrite the entry with key `k` in place, or append. -/
def dictSet {α : Type} : List (String × α) → String → α → List (String × α)
  | [], k, v => [(k, v)]
  | p :: t, k, v => if p.1 == k then (k, v) :: t else p :: dictSet t k v

theorem dictGet_dictSet_self {α : Type} (d : List (String × α)) (k : String) (v : α) :
    dictGet (dictSet d k v) k = some v := by
  induction d with
  | nil => simp [dictGet, dictSet]
  | cons p t ih =>
    by_cases h : p.1 = k
    · simp [dictGet, dictSet, h]
    · simp [dictGet, dictSet, h, ih]

theorem dictGet_dictSet_ne {α : Type} (d : List (String × α)) (k k' : String) (v : α)
    (h : k' ≠ k) : dictGet (dictSet d k v) k' = dictGet d k' := by
  have hkk : ¬(k = k') := fun hh => h hh.symm
  induction d with
  | nil => simp [dictGet, dictSet, hkk]
  | cons p t ih =>
    by_cases hp : p.1 = k
    · simp [dictGet, dictSet, hp, hkk]
    · simp [dictGet, dictSet, hp, ih]

/-- A non-empty dict yields `some` at its first key. -/
theorem dictGet_head {α : Type} (p : String × α) (t : List (String × α)) :
    dictGet (p :: t) p.1 = some p.2 := by
  simp [dictGet]

/-! ## JSON record values -/

/-- A JSON scalar field value as stored in a record. -/
inductive PyVal where
  | str : String → PyVal
  | int : Int → PyVal
  | bool : Bool → PyVal
deriving DecidableEq, Repr

/-- A record: a JSON object, i.e. an insertion-ordered dict of fields. -/
abbrev JRec := List (String × PyVal)

/-- `r.get('id', 0)` (and `r['id']` under the store invariant that the
field is present): the integer id of a record, defaulting to `0`. -/
def recId (r : JRec) : Int :=
  match dictGet r "id" with
  | some (.int n) => n
  | _ => 0

/-- Python `max(l, default=0)` on integers. -/
def pyMaxD0 : List Int → Int
  | [] => 0
  | [x] => x
  | x :: y :: t => max x (pyMaxD0 (y :: t))

theorem le_pyMaxD0 : ∀ (l : List Int), ∀ i ∈ l, i ≤ pyMaxD0 l
  | [], _, hi => by cases hi
  | [x], i, hi => by simp_all [pyMaxD0]
  | x :: y :: t, i, hi => by
    simp only [pyMaxD0]
    rcases List.mem_cons.mp hi with h | h
    · subst h; exact le_max_left _ _
    · exact le_trans (le_pyMaxD0 (y :: t) i h) (le_max_right _ _)

theorem pyMaxD0_mem : ∀ (l : List Int), l ≠ [] → pyMaxD0 l ∈ l
  | [], h => absurd rfl h
  | [x], _ => by simp [pyMaxD0]
  | x :: y :: t, _ => by
    simp only [pyMaxD0]
    rcases max_choice x (pyMaxD0 (y :: t)) with h | h
    · rw [h]; exact List.mem_cons_self _ _
    · rw [h]; exact List.mem_cons_of_mem _ (pyMaxD0_mem (y :: t) (by simp))

theorem pyMaxD0_eq_of_isMax (l : List Int) (N : Int) (hmem : N ∈ l)
    (hub : ∀ i ∈ l, i ≤ N) : pyMaxD0 l = N :=
  le_antisymm (hub _ (pyMaxD0_mem l (List.ne_nil_of_mem hmem))) (le_pyMaxD0 l N hmem)

/-! ## `load_json_file` (§ Record Store: load) -/

/-- A JSON document as read from a backing file: either a sequence of
records (the shape every store persists) or a JSON object. -/
inductive LoadedVal where
  | seq : List JRec → LoadedVal
  | mapping : List (String × PyVal) → LoadedVal
deriving DecidableEq, Repr

/-- Python truthiness of a loaded JSON document (non-empty collection). -/
def pyTruthy : LoadedVal → Bool
  | .seq l => !l.isEmpty
  | .mapping d => !d.isEmpty

/-- The outcomes of reading the backing file that `load_json_file`
distinguishes: the file exists and decodes to `v`; the file is missing
(`filepath.exists()` false); the content fails to decode
(`json.JSONDecodeError`); or an `IOError` is raised. -/
inductive FileRead where
  | content : LoadedVal → FileRead
  | missing : FileRead
  | badJson : FileRead
  | ioError : FileRead

/-- `load_json_file(filepath, default_data)`: return the decoded file
content when the read succeeds; otherwise `default_data or {}` — the
default when it is truthy, and the empty mapping `{}` otherwise
(`None` default included). -/
def load_json_file (file : FileRead) (default_data : Option LoadedVal) : LoadedVal :=
  match file with
  | .content v => v
  | _ =>
    match default_data with
    | some d => if pyTruthy d then d else .mapping []
    | none => .mapping []

/-! ## `validate_booking_data` (§ Booking Validator) -/

/-- A booking payload: the submitted JSON object, with the string image
`str(value)` of each field value (the validator only ever inspects
`str(data[field])`). -/
abbrev Payload := List (String × String)

/-- The required booking fields, in the order the validator checks them. -/
def requiredFields : List String :=
  ["name", "email", "phone", "carModel", "preferredDate", "preferredTime"]

/-- `field not in data or not str(data[field]).strip()`. -/
def requiredFails (data : Payload) (f : String) : Bool :=
  match dictGet data f with
  | none => true
  | some v => pyStrip v == ""

/-- One iteration of the required-fields loop:
`errors[field] = f"{field} is required"` when the check fails. -/
def requiredStep (data : Payload) (errs : List (String × String)) (f : String) :
    List (String × String) :=
  if requiredFails data f then dictSet errs f (f ++ " is required") else errs

/-- The email block: when `email` is present and lacks `'@'`, set
`errors['email'] = "Invalid email format"`. -/
def emailStep (data : Payload) (errs : List (String × String)) : List (String × String) :=
  match dictGet data "email" with
  | some v => if containsAt v then errs else dictSet errs "email" "Invalid email format"
  | none => errs

/-- The phone block: when `phone` is present, strip hyphens and spaces;
unless the result is all digits of length 10, set
`errors['phone'] = "Phone must be 10 digits"`. -/
def phoneStep (data : Payload) (errs : List (String × String)) : List (String × String) :=
  match dictGet data "phone" with
  | some v =>
    let phone := cleanPhone v
    if !pyIsdigit phone || phone.length != 10 then
      dictSet errs "phone" "Phone must be 10 digits"
    else errs
  | none => errs

/-- The error mapping accumulated by the required-fields loop. -/
def requiredErrors (data : Payload) : List (String × String) :=
  requiredFields.foldl (requiredStep data) []

/-- The error mapping accumulated by `validate_booking_data` before the
final sentinel test. -/
def rawErrors (data : Payload) : List (String × String) :=
  phoneStep data (emailStep data (requiredErrors data))

/-- `validate_booking_data(data)`: `errors if errors else None`. -/
def validate_booking_data (data : Payload) : Option (List (String × String)) :=
  let errors := rawErrors data
  if errors.isEmpty then none else some errors

/-! ## `get_cars` filtering (§ Filter/Query Evaluator) -/

/-- A car record, with the fields the filter inspects. Extra fields of
the JSON record do not influence the filter and are omitted. -/
structure Car where
  id : Int
  brand : String
  model : String
  price : Int
  segment : String
  fuelType : String
  transmission : String
deriving DecidableEq, Repr

/-- The query parameters of `GET /api/cars`: `request.args.get` yields
`none` for an absent parameter; `minPrice`/`maxPrice` are parsed with
`type=int`; `search` defaults to the empty string. -/
structure CarQuery where
  brand : Option String
  segment : Option String
  fuelType : Option String
  transmission : Option String
  minPrice : Option Int
  maxPrice : Option Int
  search : String
deriving Repr

/-- `if brand: filtered_cars = [c for c in filtered_cars if c['brand'].lower() == brand.lower()]`. -/
def filterBrand (brand : Option String) (fc : List Car) : List Car :=
  match brand with
  | some b => if b == "" then fc else fc.filter fun c => pyLower c.brand == pyLower b
  | none => fc

/-- The `segment` block of `get_cars`. -/
def filterSegment (segment : Option String) (fc : List Car) : List Car :=
  match segment with
  | some s => if s == "" then fc else fc.filter fun c => pyLower c.segment == pyLower s
  | none => fc

/-- The `fuelType` block of `get_cars`. -/
def filterFuel (fuel : Option String) (fc : List Car) : List Car :=
  match fuel with
  | some s => if s == "" then fc else fc.filter fun c => pyLower c.fuelType == pyLower s
  | none => fc

/-- The `transmission` block of `get_cars`. -/
def filterTrans (trans : Option String) (fc : List Car) : List Car :=
  match trans with
  | some s => if s == "" then fc else fc.filter fun c => pyLower c.transmission == pyLower s
  | none => fc

/-- `if min_price: ...` — a parsed integer is truthy iff non-zero. -/
def filterMin (minPrice : Option Int) (fc : List Car) : List Car :=
  match minPrice with
  | some n => if n == 0 then fc else fc.filter fun c => decide (n ≤ c.price)
  | none => fc

/-- `if max_price: ...` — a parsed integer is truthy iff non-zero. -/
def filterMax (maxPrice : Option Int) (fc : List Car) : List Car :=
  match maxPrice with
  | some n => if n == 0 then fc else fc.filter fun c => decide (c.price ≤ n)
  | none => fc

/-- The `search` block: the parameter is lower-cased once at parse time,
and a car matches when it occurs in the lower-cased model or brand. -/
def filterSearch (search : String) (fc : List Car) : List Car :=
  let s := pyLower search
  if s == "" then fc
  else fc.filter fun c => pyInStr s (pyLower c.model) || pyInStr s (pyLower c.brand)

/-- The filtering pipeline of `get_cars`, applied in source order. -/
def get_cars_filtered (q : CarQuery) (cars : List Car) : List Car :=
  filterSearch q.search
    (filterMax q.maxPrice
      (filterMin q.minPrice
        (filterTrans q.transmission
          (filterFuel q.fuelType
            (filterSegment q.segment
              (filterBrand q.brand cars))))))

/-! ## Mutating store operations -/

/-- Build a Python dict literal from an ordered list of key/value pairs
(`{k1: v1, **data, ...}`): later pairs overwrite earlier ones. -/
def mkDict (l : List (String × PyVal)) : JRec :=
  l.foldl (fun d kv => dictSet d kv.1 kv.2) []

/-- The record built by `add_car`:
`{'id': new_id, **data, 'addedDate': now}` with
`new_id = max([c['id'] for c in cars], default=0) + 1`. -/
def new_car_of (cars : List JRec) (data : JRec) (now : String) : JRec :=
  let new_id := pyMaxD0 (cars.map recId) + 1
  mkDict ((("id", PyVal.int new_id) :: data) ++ [("addedDate", PyVal.str now)])

/-- `add_car` after validation: append the new record to the store. -/
def add_car (cars : List JRec) (data : JRec) (now : String) : List JRec :=
  cars ++ [new_car_of cars data now]

/-- `str(data.get(k, ''))` specialised to the string fields
`create_booking` copies out of its payload. -/
def payloadStr (data : JRec) (k : String) : String :=
  match dictGet data k with
  | some (.str s) => s
  | _ => ""

/-- The record built by `create_booking`: a dict literal with fixed keys
(the payload is never spread, so a payload `id` cannot leak in), with
`new_id = max([b.get('id', 0) for b in bookings], default=0) + 1`. -/
def new_booking_of (bookings : List JRec) (data : JRec) (now : String) : JRec :=
  let new_id := pyMaxD0 (bookings.map recId) + 1
  [("id", PyVal.int new_id),
   ("name", PyVal.str (pyStrip (payloadStr data "name"))),
   ("email", PyVal.str (pyStrip (payloadStr data "email"))),
   ("phone", PyVal.str (pyStrip (payloadStr data "phone"))),
   ("carModel", PyVal.str (payloadStr data "carModel")),
   ("preferredDate", PyVal.str (payloadStr data "preferredDate")),
   ("preferredTime", PyVal.str (payloadStr data "preferredTime")),
   ("comments", PyVal.str (pyStrip (payloadStr data "comments"))),
   ("bookingDate", PyVal.str now),
   ("status", PyVal.str "pending")]

/-- `create_booking` after validation: append the new record. -/
def create_booking (bookings : List JRec) (data : JRec) (now : String) : List JRec :=
  bookings ++ [new_booking_of bookings data now]

/-- The update loop of `update_car`:
`for key, value in data.items(): if key != 'id': car[key] = value`. -/
def mergeFields (r : JRec) (data : JRec) : JRec :=
  data.foldl (fun c kv => if kv.1 = "id" then c else dictSet c kv.1 kv.2) r

/-- The full per-record effect of `update_car`: merge the non-id payload
fields, then `car['updatedDate'] = now`. -/
def update_rec (r : JRec) (data : JRec) (now : String) : JRec :=
  dictSet (mergeFields r data) "updatedDate" (PyVal.str now)

/-- The per-record effect of `update_booking`:
`if 'status' in data: booking['status'] = data['status']`, then
`booking['updatedDate'] = now`.  No other payload field is merged. -/
def update_booking_rec (b : JRec) (data : JRec) (now : String) : JRec :=
  let b1 :=
    match dictGet data "status" with
    | some v => dictSet b "status" v
    | none => b
  dictSet b1 "updatedDate" (PyVal.str now)

/-- `next(c for c in cars if c['id'] == car_id)` followed by an in-place
mutation of that record: rewrite the first record with the given id. -/
def updateFirst (s : List JRec) (cid : Int) (f : JRec → JRec) : List JRec :=
  match s with
  | [] => []
  | r :: t => if recId r = cid then f r :: t else r :: updateFirst t cid f

/-- `update_car` on a store (the 404 branch leaves the store untouched). -/
def update_car (cars : List JRec) (car_id : Int) (data : JRec) (now : String) : List JRec :=
  updateFirst cars car_id (fun r => update_rec r data now)

/-- `update_booking` on a store. -/
def update_booking (bookings : List JRec) (booking_id : Int) (data : JRec) (now : String) :
    List JRec :=
  updateFirst bookings booking_id (fun b => update_booking_rec b data now)

/-- Outcome of a delete handler: the reported success flag and the
resulting persisted store (unchanged when the save fails). -/
structure DeleteResult where
  ok : Bool
  store : List JRec
deriving DecidableEq, Repr

/-- `delete_car`: keep the records whose id differs, then save. -/
def delete_car (cars : List JRec) (car_id : Int) (saveOk : Bool) : DeleteResult :=
  let filtered := cars.filter fun c => recId c != car_id
  if saveOk then ⟨true, filtered⟩ else ⟨false, cars⟩

/-- `delete_booking`: identical logic on the bookings store. -/
def delete_booking (bookings : List JRec) (booking_id : Int) (saveOk : Bool) : DeleteResult :=
  let filtered := bookings.filter fun b => recId b != booking_id
  if saveOk then ⟨true, filtered⟩ else ⟨false, bookings⟩

/-! ## `get_stats` (§ Statistics Aggregator) -/

/-- The payload assembled by `get_stats`.  The mean price is modelled as
an exact rational (`sum / len` on Python ints is float division; the
mathematical value is this rational). -/
structure Stats where
  totalCars : Nat
  totalBrands : Nat
  totalBookings : Nat
  averageCarPrice : ℚ
  brandDistribution : List (String × Nat)

/-- One iteration of the distribution loop:
`d[brand] = d.get(brand, 0) + 1`. -/
def brandDistStep (d : List (String × Nat)) (c : Car) : List (String × Nat) :=
  dictSet d c.brand ((dictGet d c.brand).getD 0 + 1)

/-- `get_stats`: counts, mean car price (`0` when there are no cars),
and the brand-to-count distribution, computed from the current stores. -/
def get_stats (cars : List Car) (bookings : List JRec) (brands : List JRec) : Stats :=
  { totalCars := cars.length
    totalBrands := brands.length
    totalBookings := bookings.length
    averageCarPrice :=
      if cars.isEmpty then 0
      else ((cars.map Car.price).sum : ℚ) / (cars.length : ℚ)
    brandDistribution := cars.foldl brandDistStep [] }

/-! ## Spec-side definitions

These follow the wording of the specification (and, where a claim had to
be amended, the amended wording); the theorems below compare them with
the code embedding above. -/

/-- Spec wording, § Filter/Query Evaluator: a supplied (present and
non-empty) string criterion is a case-insensitive exact match on the
given field; an absent or empty criterion is a no-op. -/
def suppliedMatchStr (crit : Option String) (fieldVal : String) : Bool :=
  match crit with
  | some s => s == "" || pyLower fieldVal == pyLower s
  | none => true

/-- Spec wording: a supplied (non-zero) `minPrice` is an inclusive lower
bound on the price. -/
def suppliedMinOk (crit : Option Int) (price : Int) : Bool :=
  match crit with
  | some n => n == 0 || decide (n ≤ price)
  | none => true

/-- Spec wording: a supplied (non-zero) `maxPrice` is an inclusive upper
bound on the price. -/
def suppliedMaxOk (crit : Option Int) (price : Int) : Bool :=
  match crit with
  | some n => n == 0 || decide (price ≤ n)
  | none => true

/-- Spec wording: a supplied (non-empty) `search` is a case-insensitive
substring match against `model` OR `brand`. -/
def searchOk (search : String) (c : Car) : Bool :=
  search == ""
    || pyInStr (pyLower search) (pyLower c.model)
    || pyInStr (pyLower search) (pyLower c.brand)

/-- Spec wording, claim C1: a car satisfies every supplied criterion,
AND-combined. -/
def specCarMatches (q : CarQuery) (c : Car) : Bool :=
  suppliedMatchStr q.brand c.brand
    && suppliedMatchStr q.segment c.segment
    && suppliedMatchStr q.fuelType c.fuelType
    && suppliedMatchStr q.transmission c.transmission
    && suppliedMinOk q.minPrice c.price
    && suppliedMaxOk q.maxPrice c.price
    && searchOk q.search c

/-- The error the validator reports for one required field (amended
wording of claim C4): an absent field gets `"<field> is required"`; so
does a present-but-blank field, except that a present `email` without
`'@'` gets `"Invalid email format"` and a present `phone` failing the
10-digit test gets `"Phone must be 10 digits"` — the format checks run
after the required check and overwrite its message. -/
def specFieldError (data : Payload) (f : String) : Option String :=
  if f == "email" then
    match dictGet data "email" with
    | none => some "email is required"
    | some v => if containsAt v then none else some "Invalid email format"
  else if f == "phone" then
    match dictGet data "phone" with
    | none => some "phone is required"
    | some v =>
      if !pyIsdigit (cleanPhone v) || (cleanPhone v).length != 10 then
        some "Phone must be 10 digits"
      else none
  else
    if requiredFails data f then some (f ++ " is required") else none

/-- Spec wording, claim C6: the cleaned phone consists of exactly 10
ASCII digit characters. -/
def tenAsciiDigits (s : String) : Prop :=
  s.length = 10 ∧ ∀ c ∈ s.toList, '0' ≤ c ∧ c ≤ '9'

instance (s : String) : Decidable (tenAsciiDigits s) := by
  unfold tenAsciiDigits
  infer_instance

/-- Spec wording, claim C8: the number of cars whose brand field equals
the given name. -/
def countBrand (b : String) (cars : List Car) : Nat :=
  (cars.filter fun c => c.brand == b).length

/-- Does the record carry an integer `id` field? -/
def hasIntId (r : JRec) : Bool :=
  match dictGet r "id" with
  | some (.int _) => true
  | _ => false

/-- Spec wording, claim C9 (§ Data Model invariant): every record of the
store carries an `id` field and ids are pairwise distinct. -/
def storeInv (s : List JRec) : Prop :=
  (∀ r ∈ s, hasIntId r = true) ∧ (s.map recId).Nodup

instance (s : List JRec) : Decidable (storeInv s) := by
  unfold storeInv
  infer_instance

/-! ## Filter lemmas (claims C1 and C10) -/

theorem pyLower_eq_empty_iff (s : String) : pyLower s = "" ↔ s = "" := by
  cases s with
  | mk l =>
    simp [pyLower, String.ext_iff, String.toList]

theorem mem_filterBrand (brand : Option String) (fc : List Car) (c : Car) :
    c ∈ filterBrand brand fc ↔ c ∈ fc ∧ suppliedMatchStr brand c.brand = true := by
  cases brand with
  | none => simp [filterBrand, suppliedMatchStr]
  | some b =>
    by_cases hb : b = ""
    · simp [filterBrand, suppliedMatchStr, hb]
    · simp [filterBrand, suppliedMatchStr, hb, List.mem_filter]

theorem mem_filterSegment (segment : Option String) (fc : List Car) (c : Car) :
    c ∈ filterSegment segment fc ↔ c ∈ fc ∧ suppliedMatchStr segment c.segment = true := by
  cases segment with
  | none => simp [filterSegment, suppliedMatchStr]
  | some s =>
    by_cases hs : s = ""
    · simp [filterSegment, suppliedMatchStr, hs]
    · simp [filterSegment, suppliedMatchStr, hs, List.mem_filter]

theorem mem_filterFuel (fuel : Option String) (fc : List Car) (c : Car) :
    c ∈ filterFuel fuel fc ↔ c ∈ fc ∧ suppliedMatchStr fuel c.fuelType = true := by
  cases fuel with
  | none => simp [filterFuel, suppliedMatchStr]
  | some s =>
    by_cases hs : s = ""
    · simp [filterFuel, suppliedMatchStr, hs]
    · simp [filterFuel, suppliedMatchStr, hs, List.mem_filter]

theorem mem_filterTrans (trans : Option String) (fc : List Car) (c : Car) :
    c ∈ filterTrans trans fc ↔ c ∈ fc ∧ suppliedMatchStr trans c.transmission = true := by
  cases trans with
  | none => simp [filterTrans, suppliedMatchStr]
  | some s =>
    by_cases hs : s = ""
    · simp [filterTrans, suppliedMatchStr, hs]
    · simp [filterTrans, suppliedMatchStr, hs, List.mem_filter]

theorem mem_filterMin (minPrice : Option Int) (fc : List Car) (c : Car) :
    c ∈ filterMin minPrice fc ↔ c ∈ fc ∧ suppliedMinOk minPrice c.price = true := by
  cases minPrice with
  | none => simp [filterMin, suppliedMinOk]
  | some n =>
    by_cases hn : n = 0
    · simp [filterMin, suppliedMinOk, hn]
    · simp [filterMin, suppliedMinOk, hn, List.mem_filter]

theorem mem_filterMax (maxPrice : Option Int) (fc : List Car) (c : Car) :
    c ∈ filterMax maxPrice fc ↔ c ∈ fc ∧ suppliedMaxOk maxPrice c.price = true := by
  cases maxPrice with
  | none => simp [filterMax, suppliedMaxOk]
  | some n =>
    by_cases hn : n = 0
    · simp [filterMax, suppliedMaxOk, hn]
    · simp [filterMax, suppliedMaxOk, hn, List.mem_filter]

theorem mem_filterSearch (search : String) (fc : List Car) (c : Car) :
    c ∈ filterSearch search fc ↔ c ∈ fc ∧ searchOk search c = true := by
  by_cases hs : search = ""
  · subst hs
    have h0 : pyLower "" = "" := rfl
    simp [filterSearch, searchOk, h0]
  · have hl : ¬(pyLower search = "") := fun h => hs ((pyLower_eq_empty_iff search).mp h)
    simp [filterSearch, searchOk, hs, hl, List.mem_filter]

/-- C1: a record is in the filtered result of the car-list operation iff
it is in the store and satisfies every supplied criterion (brand,
segment, fuelType, transmission as case-insensitive exact matches,
minPrice/maxPrice as inclusive bounds, search as case-insensitive
substring of model OR brand), AND-combined. -/
theorem claim_C1_filter_iff (q : CarQuery) (cars : List Car) (c : Car) :
    c ∈ get_cars_filtered q cars ↔ c ∈ cars ∧ specCarMatches q c = true := by
  simp only [get_cars_filtered, mem_filterSearch, mem_filterMax, mem_filterMin,
    mem_filterTrans, mem_filterFuel, mem_filterSegment, mem_filterBrand,
    specCarMatches, Bool.and_eq_true]
  tauto

/-- C10: a `minPrice` or `maxPrice` criterion equal to 0 behaves exactly
as an absent criterion; in particular a query supplying only
`maxPrice=0` returns all cars. -/
theorem claim_C10_zero_price_bound_ignored (q : CarQuery) (cars : List Car) :
    get_cars_filtered
        (CarQuery.mk q.brand q.segment q.fuelType q.transmission (some 0) q.maxPrice q.search)
        cars
      = get_cars_filtered
          (CarQuery.mk q.brand q.segment q.fuelType q.transmission none q.maxPrice q.search)
          cars
    ∧ get_cars_filtered
        (CarQuery.mk q.brand q.segment q.fuelType q.transmission q.minPrice (some 0) q.search)
        cars
      = get_cars_filtered
          (CarQuery.mk q.brand q.segment q.fuelType q.transmission q.minPrice none q.search)
          cars
    ∧ get_cars_filtered (CarQuery.mk none none none none none (some 0) "") cars = cars := by
  have h0 : pyLower "" = "" := rfl
  refine ⟨?_, ?_, ?_⟩ <;>
    simp [get_cars_filtered, filterMin, filterMax, filterBrand, filterSegment,
      filterFuel, filterTrans, filterSearch, h0]

/-- C3 as stated is false: with the empty sequence `[]` configured as
the default, a missing backing file makes `load_json_file` return the
empty mapping `{}` (because `default_data or {}` discards a falsy
default), not the configured empty sequence. -/
theorem claim_C3_counterexample :
    load_json_file .missing (some (.seq [])) = .mapping []
      ∧ LoadedVal.mapping [] ≠ LoadedVal.seq [] := by
  refine ⟨rfl, ?_⟩
  intro h
  cases h

/-- C3 amended: on missing file, decode failure, or I/O error the load
operation never raises (it is total) and returns `default_data or {}`:
the empty mapping when the configured default is the empty sequence
(or any falsy value), and the configured default itself when it is
truthy (non-empty). -/
theorem claim_C3_load_on_failure :
    (load_json_file .missing (some (.seq [])) = .mapping []
      ∧ load_json_file .badJson (some (.seq [])) = .mapping []
      ∧ load_json_file .ioError (some (.seq [])) = .mapping [])
    ∧ (∀ d, pyTruthy d = true →
        load_json_file .missing (some d) = d
        ∧ load_json_file .badJson (some d) = d
        ∧ load_json_file .ioError (some d) = d) := by
  refine ⟨⟨rfl, rfl, rfl⟩, ?_⟩
  intro d hd
  exact ⟨by simp [load_json_file, hd], by simp [load_json_file, hd], by simp [load_json_file, hd]⟩

/-- Witness for the amended C3 at a concrete truthy default. -/
theorem claim_C3_load_on_failure_witness :
    load_json_file .missing (some (.seq [[("id", PyVal.int 1)]]))
      = .seq [[("id", PyVal.int 1)]] :=
  (claim_C3_load_on_failure.2 (.seq [[("id", PyVal.int 1)]]) (by decide)).1

/-- C7: for every id (present in the store or not) the delete operation
reports success, deleting twice succeeds both times with the second call
a no-op, and deleting an id that no record carries leaves the store
unchanged — assuming the save step succeeds. -/
theorem claim_C7_delete_idempotent (cars bookings : List JRec) (cid bid : Int) :
    (delete_car cars cid true).ok = true
    ∧ delete_car (delete_car cars cid true).store cid true
        = DeleteResult.mk true (delete_car cars cid true).store
    ∧ ((∀ r ∈ cars, recId r ≠ cid) → (delete_car cars cid true).store = cars)
    ∧ (delete_booking bookings bid true).ok = true
    ∧ delete_booking (delete_booking bookings bid true).store bid true
        = DeleteResult.mk true (delete_booking bookings bid true).store
    ∧ ((∀ r ∈ bookings, recId r ≠ bid) → (delete_booking bookings bid true).store = bookings) := by
  refine ⟨rfl, ?_, ?_, rfl, ?_, ?_⟩
  · simp [delete_car, List.filter_filter]
  · intro h
    simp only [delete_car]
    exact List.filter_eq_self.mpr fun r hr => by simp [h r hr]
  · simp [delete_booking, List.filter_filter]
  · intro h
    simp only [delete_booking]
    exact List.filter_eq_self.mpr fun r hr => by simp [h r hr]

/-- Witness for C7 at a concrete store and an id that is not present. -/
theorem claim_C7_delete_idempotent_witness :
    (delete_car [[("id", PyVal.int 1)]] 2 true).store = [[("id", PyVal.int 1)]] :=
  (claim_C7_delete_idempotent [[("id", PyVal.int 1)]] [] 2 0).2.2.1 (by decide)

/-! ## Record and store lemmas (claims C2, C5, C9) -/

theorem dictGet_eq_none_iff {α : Type} (d : List (String × α)) (k : String) :
    dictGet d k = none ↔ k ∉ d.map Prod.fst := by
  induction d with
  | nil => simp [dictGet]
  | cons p t ih =>
    simp only [dictGet, List.map_cons, List.mem_cons, not_or]
    by_cases hp : p.1 = k
    · simp [hp]
    · simp only [beq_iff_eq, hp, if_false, ih]
      exact ⟨fun hn => ⟨fun hh => hp hh.symm, hn⟩, fun hn => hn.2⟩

/-- Folding dict assignments over pairs whose keys avoid `k` leaves the
value at `k` unchanged. -/
theorem dictGet_foldl_dictSet_notMem {α : Type} :
    ∀ (l : List (String × α)) (d : List (String × α)) (k : String),
      k ∉ l.map Prod.fst →
      dictGet (l.foldl (fun d kv => dictSet d kv.1 kv.2) d) k = dictGet d k
  | [], _, _, _ => rfl
  | kv :: t, d, k, h => by
    simp only [List.map_cons, List.mem_cons, not_or] at h
    have hk : k ≠ kv.1 := h.1
    have ht : k ∉ t.map Prod.fst := h.2
    calc dictGet ((kv :: t).foldl (fun d kv => dictSet d kv.1 kv.2) d) k
        = dictGet (t.foldl (fun d kv => dictSet d kv.1 kv.2) (dictSet d kv.1 kv.2)) k := rfl
      _ = dictGet (dictSet d kv.1 kv.2) k := dictGet_foldl_dictSet_notMem t _ k ht
      _ = dictGet d k := dictGet_dictSet_ne d kv.1 k kv.2 hk

/-- The id field of the record built by `add_car`, when the payload does
not itself carry an `id`. -/
theorem dictGet_new_car_of_id (cars : List JRec) (data : JRec) (now : String)
    (h : dictGet data "id" = none) :
    dictGet (new_car_of cars data now) "id"
      = some (PyVal.int (pyMaxD0 (cars.map recId) + 1)) := by
  have hdata : "id" ∉ data.map Prod.fst := (dictGet_eq_none_iff data "id").mp h
  simp only [new_car_of, mkDict, List.cons_append, List.foldl_cons, List.foldl_append,
    List.foldl_nil]
  rw [dictGet_dictSet_ne _ "addedDate" "id" _ (by decide)]
  rw [dictGet_foldl_dictSet_notMem data _ "id" hdata]
  rfl

theorem recId_new_car_of (cars : List JRec) (data : JRec) (now : String)
    (h : dictGet data "id" = none) :
    recId (new_car_of cars data now) = pyMaxD0 (cars.map recId) + 1 := by
  simp [recId, dictGet_new_car_of_id cars data now h]

theorem dictGet_new_booking_of_id (bookings : List JRec) (data : JRec) (now : String) :
    dictGet (new_booking_of bookings data now) "id"
      = some (PyVal.int (pyMaxD0 (bookings.map recId) + 1)) := rfl

theorem recId_new_booking_of (bookings : List JRec) (data : JRec) (now : String) :
    recId (new_booking_of bookings data now) = pyMaxD0 (bookings.map recId) + 1 := by
  simp [recId, dictGet_new_booking_of_id]

/-- The merge loop of `update_car` never touches the `id` field. -/
theorem dictGet_mergeFields_id :
    ∀ (data : JRec) (r : JRec), dictGet (mergeFields r data) "id" = dictGet r "id"
  | [], _ => rfl
  | kv :: t, r => by
    have hstep : mergeFields r (kv :: t)
        = mergeFields (if kv.1 = "id" then r else dictSet r kv.1 kv.2) t := rfl
    rw [hstep, dictGet_mergeFields_id t]
    by_cases hk : kv.1 = "id"
    · rw [if_pos hk]
    · rw [if_neg hk]
      exact dictGet_dictSet_ne r kv.1 "id" kv.2 (fun hh => hk hh.symm)

/-- Fields not supplied in the payload are untouched by the merge loop. -/
theorem dictGet_mergeFields_notMem :
    ∀ (data : JRec) (r : JRec) (k : String), k ∉ data.map Prod.fst →
      dictGet (mergeFields r data) k = dictGet r k
  | [], _, _, _ => rfl
  | kv :: t, r, k, h => by
    simp only [List.map_cons, List.mem_cons, not_or] at h
    have hk : k ≠ kv.1 := h.1
    have ht : k ∉ t.map Prod.fst := h.2
    have hstep : mergeFields r (kv :: t)
        = mergeFields (if kv.1 = "id" then r else dictSet r kv.1 kv.2) t := rfl
    rw [hstep, dictGet_mergeFields_notMem t _ k ht]
    by_cases hid : kv.1 = "id"
    · rw [if_pos hid]
    · rw [if_neg hid]
      exact dictGet_dictSet_ne r kv.1 k kv.2 hk

/-- Every supplied non-id field of a duplicate-free payload ends up in
the merged record with the supplied value. -/
theorem dictGet_mergeFields_of_supplied :
    ∀ (data : JRec) (r : JRec) (k : String) (v : PyVal),
      (data.map Prod.fst).Nodup → dictGet data k = some v → k ≠ "id" →
      dictGet (mergeFields r data) k = some v
  | [], _, _, _, _, hget, _ => by simp [dictGet] at hget
  | kv :: t, r, k, v, hnd, hget, hid => by
    have hstep : mergeFields r (kv :: t)
        = mergeFields (if kv.1 = "id" then r else dictSet r kv.1 kv.2) t := rfl
    simp only [List.map_cons, List.nodup_cons] at hnd
    by_cases hk : kv.1 = k
    · have hv : v = kv.2 := by
        simp only [dictGet, beq_iff_eq, hk, if_true, Option.some.injEq] at hget
        exact hget.symm
      subst hv
      have hkid : ¬(kv.1 = "id") := fun hh => hid (hk.symm.trans hh)
      have hknot : k ∉ t.map Prod.fst := hk ▸ hnd.1
      rw [hstep, if_neg hkid, dictGet_mergeFields_notMem t _ k hknot, ← hk]
      exact dictGet_dictSet_self r kv.1 kv.2
    · have hget' : dictGet t k = some v := by
        simp only [dictGet, beq_iff_eq, hk, if_false] at hget
        exact hget
      rw [hstep]
      exact dictGet_mergeFields_of_supplied t _ k v hnd.2 hget' hid

theorem dictGet_update_rec_id (r data : JRec) (now : String) :
    dictGet (update_rec r data now) "id" = dictGet r "id" := by
  unfold update_rec
  rw [dictGet_dictSet_ne _ "updatedDate" "id" _ (by decide), dictGet_mergeFields_id]

theorem recId_update_rec (r data : JRec) (now : String) :
    recId (update_rec r data now) = recId r := by
  simp [recId, dictGet_update_rec_id]

theorem hasIntId_update_rec (r data : JRec) (now : String) :
    hasIntId (update_rec r data now) = hasIntId r := by
  simp [hasIntId, dictGet_update_rec_id]

theorem dictGet_update_rec_updatedDate (r data : JRec) (now : String) :
    dictGet (update_rec r data now) "updatedDate" = some (PyVal.str now) :=
  dictGet_dictSet_self _ _ _

/-- `update_booking` touches only `status` and `updatedDate`. -/
theorem dictGet_update_booking_rec (b data : JRec) (now : String) (k : String)
    (hs : k ≠ "status") (hu : k ≠ "updatedDate") :
    dictGet (update_booking_rec b data now) k = dictGet b k := by
  unfold update_booking_rec
  cases hst : dictGet data "status" with
  | none =>
    simp only [hst]
    exact dictGet_dictSet_ne _ "updatedDate" k _ hu
  | some v =>
    simp only [hst]
    rw [dictGet_dictSet_ne _ "updatedDate" k _ hu]
    exact dictGet_dictSet_ne b "status" k v hs

theorem dictGet_update_booking_rec_status (b data : JRec) (now : String) (v : PyVal)
    (h : dictGet data "status" = some v) :
    dictGet (update_booking_rec b data now) "status" = some v := by
  unfold update_booking_rec
  simp only [h]
  rw [dictGet_dictSet_ne _ "updatedDate" "status" _ (by decide)]
  exact dictGet_dictSet_self b "status" v

theorem dictGet_update_booking_rec_updatedDate (b data : JRec) (now : String) :
    dictGet (update_booking_rec b data now) "updatedDate" = some (PyVal.str now) :=
  dictGet_dictSet_self _ _ _

theorem recId_update_booking_rec (b data : JRec) (now : String) :
    recId (update_booking_rec b data now) = recId b := by
  simp [recId, dictGet_update_booking_rec b data now "id" (by decide) (by decide)]

theorem hasIntId_update_booking_rec (b data : JRec) (now : String) :
    hasIntId (update_booking_rec b data now) = hasIntId b := by
  simp [hasIntId, dictGet_update_booking_rec b data now "id" (by decide) (by decide)]

/-- Rewriting one record in place without changing its id leaves the
stored id sequence unchanged. -/
theorem map_recId_updateFirst (f : JRec → JRec) (hf : ∀ r, recId (f r) = recId r) :
    ∀ (s : List JRec) (cid : Int), (updateFirst s cid f).map recId = s.map recId
  | [], _ => rfl
  | r :: t, cid => by
    by_cases h : recId r = cid
    · simp [updateFirst, h, hf]
    · simp [updateFirst, h, map_recId_updateFirst f hf t cid]

/-- Every record of an in-place update is an original record or the
image of one. -/
theorem mem_updateFirst (f : JRec → JRec) :
    ∀ (s : List JRec) (cid : Int) (x : JRec), x ∈ updateFirst s cid f →
      x ∈ s ∨ ∃ r, r ∈ s ∧ x = f r
  | [], _, _, hx => absurd hx (by simp [updateFirst])
  | r :: t, cid, x, hx => by
    by_cases h : recId r = cid
    · simp only [updateFirst, if_pos h, List.mem_cons] at hx
      rcases hx with hx | hx
      · exact Or.inr ⟨r, List.mem_cons_self _ _, hx⟩
      · exact Or.inl (List.mem_cons_of_mem _ hx)
    · simp only [updateFirst, if_neg h, List.mem_cons] at hx
      rcases hx with hx | hx
      · exact Or.inl (by simp [hx])
      · rcases mem_updateFirst f t cid x hx with h1 | ⟨r2, hr2, he⟩
        · exact Or.inl (List.mem_cons_of_mem _ h1)
        · exact Or.inr ⟨r2, List.mem_cons_of_mem _ hr2, he⟩

/-- C2 as stated is false for the cars store: `add_car` builds
`{'id': new_id, **data, ...}`, so a payload that itself carries an `id`
overwrites the allocated one.  Here the store's max id is 1, the claim
demands id 2, but the payload id 5 wins. -/
theorem claim_C2_counterexample :
    recId (new_car_of [[("id", PyVal.int 1)]] [("id", PyVal.int 5)] "T") = 5
      ∧ (5 : Int) ≠ 1 + 1 := by
  decide

/-- C2 amended: provided the car payload does not itself supply an `id`
field, the new car record gets id `1 + max(existing ids)` (`1` on an
empty store); booking creation never spreads its payload, so the new
booking always gets id `1 + max(existing ids)` (`1` on an empty store).
The max is the genuine maximum of the stored ids. -/
theorem claim_C2_next_id (cars bookings : List JRec) (data bdata : JRec) (now : String) :
    (dictGet data "id" = none →
      recId (new_car_of cars data now) = pyMaxD0 (cars.map recId) + 1
      ∧ (cars = [] → recId (new_car_of cars data now) = 1)
      ∧ (∀ N, N ∈ cars.map recId → (∀ i ∈ cars.map recId, i ≤ N) →
          recId (new_car_of cars data now) = N + 1))
    ∧ (recId (new_booking_of bookings bdata now) = pyMaxD0 (bookings.map recId) + 1
      ∧ (bookings = [] → recId (new_booking_of bookings bdata now) = 1)
      ∧ (∀ N, N ∈ bookings.map recId → (∀ i ∈ bookings.map recId, i ≤ N) →
          recId (new_booking_of bookings bdata now) = N + 1)) := by
  constructor
  · intro h
    refine ⟨recId_new_car_of cars data now h, ?_, ?_⟩
    · intro hc
      subst hc
      simp [recId_new_car_of [] data now h, pyMaxD0]
    · intro N hmem hub
      rw [recId_new_car_of cars data now h, pyMaxD0_eq_of_isMax _ N hmem hub]
  · refine ⟨recId_new_booking_of bookings bdata now, ?_, ?_⟩
    · intro hb
      subst hb
      simp [recId_new_booking_of [] bdata now, pyMaxD0]
    · intro N hmem hub
      rw [recId_new_booking_of bookings bdata now, pyMaxD0_eq_of_isMax _ N hmem hub]

/-- Witness for the amended C2: a payload without an `id`, on a store
with max id 3, produces a record with id 4. -/
theorem claim_C2_next_id_witness :
    dictGet [("brand", PyVal.str "Tata")] "id" = none
    ∧ recId (new_car_of [[("id", PyVal.int 3)]] [("brand", PyVal.str "Tata")] "T")
        = pyMaxD0 ([[("id", PyVal.int 3)]].map recId) + 1 :=
  ⟨by decide,
   ((claim_C2_next_id [[("id", PyVal.int 3)]] [] [("brand", PyVal.str "Tata")] [] "T").1
     (by decide)).1⟩

theorem storeInv_add_car (cars : List JRec) (data : JRec) (now : String)
    (hinv : storeInv cars) (h : dictGet data "id" = none) :
    storeInv (add_car cars data now) := by
  obtain ⟨hall, hnd⟩ := hinv
  have hid := dictGet_new_car_of_id cars data now h
  have hrec := recId_new_car_of cars data now h
  constructor
  · intro r hr
    rw [add_car, List.mem_append] at hr
    rcases hr with hr | hr
    · exact hall r hr
    · simp only [List.mem_singleton] at hr
      subst hr
      simp [hasIntId, hid]
  · rw [add_car, List.map_append, List.map_singleton, List.nodup_append]
    refine ⟨hnd, List.nodup_singleton _, ?_⟩
    intro a ha hb
    simp only [List.mem_singleton] at hb
    rw [hrec] at hb
    have hle := le_pyMaxD0 (cars.map recId) a ha
    omega

theorem storeInv_create_booking (bookings : List JRec) (data : JRec) (now : String)
    (hinv : storeInv bookings) : storeInv (create_booking bookings data now) := by
  obtain ⟨hall, hnd⟩ := hinv
  constructor
  · intro r hr
    rw [create_booking, List.mem_append] at hr
    rcases hr with hr | hr
    · exact hall r hr
    · simp only [List.mem_singleton] at hr
      subst hr
      simp [hasIntId, dictGet_new_booking_of_id]
  · rw [create_booking, List.map_append, List.map_singleton, List.nodup_append]
    refine ⟨hnd, List.nodup_singleton _, ?_⟩
    intro a ha hb
    simp only [List.mem_singleton] at hb
    rw [recId_new_booking_of] at hb
    have hle := le_pyMaxD0 (bookings.map recId) a ha
    omega

theorem storeInv_updateFirst (s : List JRec) (cid : Int) (f : JRec → JRec)
    (hrec : ∀ r, recId (f r) = recId r) (hid : ∀ r, hasIntId (f r) = hasIntId r)
    (hinv : storeInv s) : storeInv (updateFirst s cid f) := by
  obtain ⟨hall, hnd⟩ := hinv
  constructor
  · intro x hx
    rcases mem_updateFirst f s cid x hx with hx | ⟨r, hr, he⟩
    · exact hall x hx
    · rw [he, hid r]
      exact hall r hr
  · rw [map_recId_updateFirst f hrec]
    exact hnd

theorem storeInv_filter (s : List JRec) (p : JRec → Bool) (hinv : storeInv s) :
    storeInv (s.filter p) := by
  obtain ⟨hall, hnd⟩ := hinv
  refine ⟨fun r hr => hall r (List.mem_of_mem_filter hr), ?_⟩
  exact List.Nodup.sublist (List.Sublist.map recId (List.filter_sublist s)) hnd

/-- C9 as stated is false: adding a car whose payload itself supplies an
already-used `id` duplicates that id in the store. -/
theorem claim_C9_counterexample :
    storeInv [[("id", PyVal.int 1)]]
    ∧ ¬storeInv (add_car [[("id", PyVal.int 1)]] [("id", PyVal.int 1)] "T") := by
  decide

/-- C9 amended: on a store whose records all carry `id` with
pairwise-distinct ids, every mutating operation preserves the invariant,
provided the car-add payload does not itself supply an `id` field
(update, delete and booking creation need no proviso). -/
theorem claim_C9_invariant_preserved (cars bookings : List JRec) (data bdata udata : JRec)
    (cid bid : Int) (now : String)
    (hc : storeInv cars) (hb : storeInv bookings) :
    (dictGet data "id" = none → storeInv (add_car cars data now))
    ∧ storeInv (update_car cars cid udata now)
    ∧ storeInv ((delete_car cars cid true).store)
    ∧ storeInv (create_booking bookings bdata now)
    ∧ storeInv (update_booking bookings bid udata now)
    ∧ storeInv ((delete_booking bookings bid true).store) := by
  refine ⟨fun h => storeInv_add_car cars data now hc h, ?_, ?_,
    storeInv_create_booking bookings bdata now hb, ?_, ?_⟩
  · exact storeInv_updateFirst cars cid _ (fun r => recId_update_rec r udata now)
      (fun r => hasIntId_update_rec r udata now) hc
  · simp only [delete_car]
    exact storeInv_filter cars _ hc
  · exact storeInv_updateFirst bookings bid _ (fun r => recId_update_booking_rec r udata now)
      (fun r => hasIntId_update_booking_rec r udata now) hb
  · simp only [delete_booking]
    exact storeInv_filter bookings _ hb

/-- Witness for the amended C9 on concrete stores. -/
theorem claim_C9_invariant_preserved_witness :
    storeInv (add_car [[("id", PyVal.int 1)]] [("brand", PyVal.str "Tata")] "T") :=
  (claim_C9_invariant_preserved [[("id", PyVal.int 1)]] [] [("brand", PyVal.str "Tata")]
    [] [] 1 1 "T" (by decide) (by decide)).1 (by decide)

/-- C5 as stated is false for the bookings store: `update_booking`
copies only `status` out of its payload, so a supplied `name` field is
not merged (the stored name stays `"A"`, not the payload's `"B"`). -/
theorem claim_C5_counterexample :
    update_booking
        [[("id", PyVal.int 1), ("name", PyVal.str "A"), ("status", PyVal.str "pending")]]
        1 [("name", PyVal.str "B")] "T"
      = [[("id", PyVal.int 1), ("name", PyVal.str "A"), ("status", PyVal.str "pending"),
          ("updatedDate", PyVal.str "T")]]
    ∧ dictGet (update_booking_rec
        [("id", PyVal.int 1), ("name", PyVal.str "A"), ("status", PyVal.str "pending")]
        [("name", PyVal.str "B")] "T") "name" ≠ some (PyVal.str "B") := by
  decide

/-- C5 amended: the car update merges every supplied field of a
duplicate-free payload except `id` (never overwritten, even when the
payload supplies one) and the stamped `updatedDate`, and preserves every
unsupplied field; the booking update instead applies only the payload's
`status` field and ignores every other supplied field; both stamp
`updatedDate` with the update timestamp. -/
theorem claim_C5_update_semantics (r b data : JRec) (now : String) (k : String) (v : PyVal) :
    ((data.map Prod.fst).Nodup → dictGet data k = some v → k ≠ "id" → k ≠ "updatedDate" →
        dictGet (update_rec r data now) k = some v)
    ∧ dictGet (update_rec r data now) "id" = dictGet r "id"
    ∧ dictGet (update_rec r data now) "updatedDate" = some (PyVal.str now)
    ∧ (dictGet data k = none → k ≠ "updatedDate" →
        dictGet (update_rec r data now) k = dictGet r k)
    ∧ (dictGet data "status" = some v →
        dictGet (update_booking_rec b data now) "status" = some v)
    ∧ dictGet (update_booking_rec b data now) "id" = dictGet b "id"
    ∧ dictGet (update_booking_rec b data now) "updatedDate" = some (PyVal.str now)
    ∧ (k ≠ "status" → k ≠ "updatedDate" →
        dictGet (update_booking_rec b data now) k = dictGet b k) := by
  refine ⟨?_, dictGet_update_rec_id r data now, dictGet_update_rec_updatedDate r data now,
    ?_, dictGet_update_booking_rec_status b data now v,
    dictGet_update_booking_rec b data now "id" (by decide) (by decide),
    dictGet_update_booking_rec_updatedDate b data now,
    dictGet_update_booking_rec b data now k⟩
  · intro hnd hget hid hupd
    unfold update_rec
    rw [dictGet_dictSet_ne _ "updatedDate" k _ hupd]
    exact dictGet_mergeFields_of_supplied data r k v hnd hget hid
  · intro h hupd
    unfold update_rec
    rw [dictGet_dictSet_ne _ "updatedDate" k _ hupd]
    exact dictGet_mergeFields_notMem data r k ((dictGet_eq_none_iff data k).mp h)

/-- Witness for the amended C5: a concrete car update merges a supplied
`price` field. -/
theorem claim_C5_update_semantics_witness :
    dictGet (update_rec [("id", PyVal.int 1), ("price", PyVal.int 5)]
        [("price", PyVal.int 9)] "T") "price" = some (PyVal.int 9) :=
  (claim_C5_update_semantics [("id", PyVal.int 1), ("price", PyVal.int 5)] []
    [("price", PyVal.int 9)] "T" "price" (PyVal.int 9)).1
    (by decide) (by decide) (by decide) (by decide)

/-! ## Statistics lemmas (claim C8) -/

theorem dictGet_foldl_brandDist :
    ∀ (cars : List Car) (d : List (String × Nat)) (b : String),
      dictGet (cars.foldl brandDistStep d) b
        = if countBrand b cars = 0 then dictGet d b
          else some ((dictGet d b).getD 0 + countBrand b cars)
  | [], d, b => by simp [countBrand]
  | c :: t, d, b => by
    have hfold : (c :: t).foldl brandDistStep d = t.foldl brandDistStep (brandDistStep d c) := rfl
    rw [hfold, dictGet_foldl_brandDist t (brandDistStep d c) b]
    by_cases hb : c.brand = b
    · have hcount : countBrand b (c :: t) = countBrand b t + 1 := by
        simp [countBrand, List.filter, hb]
      have hset : dictGet (brandDistStep d c) b = some ((dictGet d b).getD 0 + 1) := by
        rw [brandDistStep, hb]
        exact dictGet_dictSet_self d b _
      rw [hcount, hset]
      by_cases ht : countBrand b t = 0
      · simp [ht]
      · rw [if_neg ht, if_neg (by omega : ¬(countBrand b t + 1 = 0))]
        simp only [Option.getD_some, Option.some.injEq]
        omega
    · have hcount : countBrand b (c :: t) = countBrand b t := by
        have hbeq : (c.brand == b) = false := beq_eq_false_iff_ne.mpr hb
        simp [countBrand, List.filter, hbeq]
      have hset : dictGet (brandDistStep d c) b = dictGet d b := by
        rw [brandDistStep]
        exact dictGet_dictSet_ne d c.brand b _ (fun hh => hb hh.symm)
      rw [hcount, hset]

/-- C8: the statistics operation reports the exact size of each store,
a mean car price that is exactly `0` on an empty cars store (total, no
division error) and otherwise satisfies `mean * count = sum of prices`,
and maps each brand name to the number of cars carrying that brand
(absent from the mapping exactly when no car carries it). -/
theorem claim_C8_stats (cars : List Car) (bookings brands : List JRec) :
    (get_stats cars bookings brands).totalCars = cars.length
    ∧ (get_stats cars bookings brands).totalBookings = bookings.length
    ∧ (get_stats cars bookings brands).totalBrands = brands.length
    ∧ (get_stats cars bookings brands).averageCarPrice * (cars.length : ℚ)
        = ((cars.map Car.price).sum : ℚ)
    ∧ (cars = [] → (get_stats cars bookings brands).averageCarPrice = 0)
    ∧ (∀ b, dictGet (get_stats cars bookings brands).brandDistribution b
        = if countBrand b cars = 0 then none else some (countBrand b cars)) := by
  refine ⟨rfl, rfl, rfl, ?_, ?_, ?_⟩
  · simp only [get_stats]
    by_cases hc : cars = []
    · subst hc
      simp
    · have hne : cars.isEmpty = false := by
        simp [List.isEmpty_iff, hc]
      have hlen : (cars.length : ℚ) ≠ 0 := by
        have hn : cars.length ≠ 0 := fun h => hc (List.eq_nil_of_length_eq_zero h)
        exact_mod_cast hn
      rw [hne]
      simp only [Bool.false_eq_true, if_false]
      exact div_mul_cancel₀ _ hlen
  · intro hc
    subst hc
    simp [get_stats]
  · intro b
    simp only [get_stats]
    rw [dictGet_foldl_brandDist cars [] b]
    simp [dictGet]

/-- Witness for C8 on the empty cars store: mean price 0 and an empty
distribution. -/
theorem claim_C8_stats_witness :
    (get_stats [] [] []).averageCarPrice = 0 :=
  (claim_C8_stats [] [] []).2.2.2.2.1 rfl

/-! ## Validator lemmas (claims C4 and C6) -/

theorem isDigit_iff_ascii (c : Char) : c.isDigit = true ↔ ('0' ≤ c ∧ c ≤ '9') := by
  have h0 : ('0').val = 48 := rfl
  have h9 : ('9').val = 57 := rfl
  simp [Char.isDigit, Char.le_def, h0, h9, ge_iff_le]

theorem not_ws_of_isDigit (c : Char) (h : c.isDigit = true) : c.isWhitespace = false := by
  cases hws : c.isWhitespace
  · rfl
  · exfalso
    simp [Char.isWhitespace] at hws
    rcases hws with ((h1 | h1) | h1) | h1 <;> subst h1 <;> exact absurd h (by decide)

theorem mem_dropWhile {α : Type} (p : α → Bool) :
    ∀ (l : List α) (a : α), a ∈ l → p a = false → a ∈ List.dropWhile p l
  | [], _, ha, _ => absurd ha (List.not_mem_nil _)
  | x :: t, a, ha, hp => by
    cases hx : p x
    · rw [List.dropWhile_cons, hx]
      simpa using ha
    · rw [List.dropWhile_cons, hx]
      simp only [if_true]
      rcases List.mem_cons.mp ha with h | h
      · subst h; rw [hx] at hp; cases hp
      · exact mem_dropWhile p t a h hp

/-- Stripping whitespace cannot empty a list that holds a
non-whitespace character. -/
theorem stripL_ne_nil_of_mem (l : List Char) (c : Char) (hc : c ∈ l)
    (hw : c.isWhitespace = false) : stripL l ≠ [] := by
  have h1 : c ∈ l.dropWhile Char.isWhitespace := mem_dropWhile _ l c hc hw
  have h2 : c ∈ (l.dropWhile Char.isWhitespace).reverse := List.mem_reverse.mpr h1
  have h3 := mem_dropWhile _ _ c h2 hw
  have h4 : c ∈ stripL l := List.mem_reverse.mpr h3
  exact List.ne_nil_of_mem h4

theorem pyStrip_eq_empty_iff (s : String) : pyStrip s = "" ↔ stripL s.toList = [] := by
  cases s with
  | mk l => simp [pyStrip, String.ext_iff]

/-- A string containing `'@'` does not strip to the empty string. -/
theorem pyStrip_ne_empty_of_containsAt (v : String) (h : containsAt v = true) :
    ¬(pyStrip v = "") := by
  have hm : '@' ∈ v.toList := by
    simpa [containsAt] using h
  intro he
  exact stripL_ne_nil_of_mem v.toList '@' hm (by decide) ((pyStrip_eq_empty_iff v).mp he)

/-- A string whose cleaned form is all digits (hence non-empty) does not
strip to the empty string. -/
theorem pyStrip_ne_empty_of_pyIsdigit (v : String) (h : pyIsdigit (cleanPhone v) = true) :
    ¬(pyStrip v = "") := by
  have h1 : (cleanPhone v).toList.isEmpty = false ∧ (cleanPhone v).toList.all Char.isDigit = true := by
    simpa [pyIsdigit, Bool.and_eq_true] using h
  obtain ⟨c, hc⟩ := List.exists_mem_of_ne_nil _ (by simpa [List.isEmpty_iff] using h1.1)
  have hd : c.isDigit = true := by
    have hall := h1.2
    rw [List.all_eq_true] at hall
    exact hall c hc
  have hcv : c ∈ v.toList := by
    have hc2 : c ∈ v.toList.filter (fun c => c != '-' && c != ' ') := hc
    exact List.mem_of_mem_filter hc2
  intro he
  exact stripL_ne_nil_of_mem v.toList c hcv (not_ws_of_isDigit c hd)
    ((pyStrip_eq_empty_iff v).mp he)

/-- Does the email format check fire? -/
def emailBad (data : Payload) : Bool :=
  match dictGet data "email" with
  | some v => !containsAt v
  | none => false

/-- Does the phone format check fire? -/
def phoneBad (data : Payload) : Bool :=
  match dictGet data "phone" with
  | some v => !pyIsdigit (cleanPhone v) || (cleanPhone v).length != 10
  | none => false

theorem dictGet_requiredStep (data : Payload) (errs : List (String × String)) (g f : String) :
    dictGet (requiredStep data errs g) f
      = if f = g ∧ requiredFails data g = true then some (g ++ " is required")
        else dictGet errs f := by
  unfold requiredStep
  by_cases hr : requiredFails data g = true
  · rw [if_pos hr]
    by_cases hf : f = g
    · rw [if_pos ⟨hf, hr⟩, hf]
      exact dictGet_dictSet_self errs g _
    · rw [if_neg (fun hc => hf hc.1)]
      exact dictGet_dictSet_ne errs g f _ hf
  · rw [if_neg hr, if_neg (fun hc => hr hc.2)]

theorem dictGet_emailStep (data : Payload) (errs : List (String × String)) (f : String) :
    dictGet (emailStep data errs) f
      = if f = "email" ∧ emailBad data = true then some "Invalid email format"
        else dictGet errs f := by
  unfold emailStep emailBad
  cases h : dictGet data "email" with
  | none => simp
  | some v =>
    cases hc : containsAt v with
    | true => simp [hc]
    | false =>
      simp only [hc, Bool.false_eq_true, if_false, Bool.not_false, eq_self_iff_true, and_true]
      by_cases hf : f = "email"
      · rw [if_pos hf, hf]
        exact dictGet_dictSet_self errs "email" _
      · rw [if_neg hf]
        exact dictGet_dictSet_ne errs "email" f _ hf

theorem dictGet_phoneStep (data : Payload) (errs : List (String × String)) (f : String) :
    dictGet (phoneStep data errs) f
      = if f = "phone" ∧ phoneBad data = true then some "Phone must be 10 digits"
        else dictGet errs f := by
  unfold phoneStep phoneBad
  cases h : dictGet data "phone" with
  | none => simp
  | some v =>
    cases hb : (!pyIsdigit (cleanPhone v) || (cleanPhone v).length != 10) with
    | false => simp [hb]
    | true =>
      simp only [hb, eq_self_iff_true, if_true, and_true]
      by_cases hf : f = "phone"
      · rw [if_pos hf, hf]
        exact dictGet_dictSet_self errs "phone" _
      · rw [if_neg hf]
        exact dictGet_dictSet_ne errs "phone" f _ hf

theorem dictGet_requiredErrors (data : Payload) (f : String) :
    dictGet (requiredErrors data) f
      = if f ∈ requiredFields ∧ requiredFails data f = true
        then some (f ++ " is required") else none := by
  by_cases hf : f ∈ requiredFields
  · have hf' := hf
    simp only [requiredFields, List.mem_cons, List.not_mem_nil, or_false] at hf'
    rcases hf' with rfl | rfl | rfl | rfl | rfl | rfl <;>
      simp [requiredErrors, requiredFields, List.foldl_cons, List.foldl_nil,
        dictGet_requiredStep, dictGet]
  · have hf' := hf
    simp only [requiredFields, List.mem_cons, List.not_mem_nil, or_false, not_or] at hf'
    obtain ⟨n1, n2, n3, n4, n5, n6⟩ := hf'
    simp only [requiredErrors, requiredFields, List.foldl_cons, List.foldl_nil,
      dictGet_requiredStep]
    rw [if_neg (fun hc => n6 hc.1), if_neg (fun hc => n5 hc.1), if_neg (fun hc => n4 hc.1),
      if_neg (fun hc => n3 hc.1), if_neg (fun hc => n2 hc.1), if_neg (fun hc => n1 hc.1),
      if_neg (fun hc => hf hc.1)]
    rfl

theorem dictGet_rawErrors_of_not_mem (data : Payload) (f : String)
    (hf : f ∉ requiredFields) : dictGet (rawErrors data) f = none := by
  have hfe : f ≠ "email" := fun h => hf (by rw [h]; simp [requiredFields])
  have hfp : f ≠ "phone" := fun h => hf (by rw [h]; simp [requiredFields])
  simp only [rawErrors, dictGet_phoneStep, dictGet_emailStep, dictGet_requiredErrors]
  rw [if_neg (fun hc => hfp hc.1), if_neg (fun hc => hfe hc.1), if_neg (fun hc => hf hc.1)]

/-- The central characterization: on required fields, the accumulated
error mapping agrees with the per-field error function. -/
theorem dictGet_rawErrors_of_mem (data : Payload) (f : String)
    (hf : f ∈ requiredFields) : dictGet (rawErrors data) f = specFieldError data f := by
  simp only [rawErrors, dictGet_phoneStep, dictGet_emailStep, dictGet_requiredErrors]
  simp only [requiredFields, List.mem_cons, List.not_mem_nil, or_false] at hf
  rcases hf with rfl | rfl | rfl | rfl | rfl | rfl
  · simp [specFieldError, requiredFields]
  · cases h : dictGet data "email" with
    | none => simp [specFieldError, requiredFields, emailBad, requiredFails, h]
    | some v =>
      cases hc : containsAt v with
      | false => simp [specFieldError, requiredFields, emailBad, h, hc]
      | true =>
        have hrf : requiredFails data "email" = false := by
          simp only [requiredFails, h]
          exact beq_eq_false_iff_ne.mpr (pyStrip_ne_empty_of_containsAt v hc)
        simp [specFieldError, requiredFields, emailBad, h, hc, hrf]
  · cases h : dictGet data "phone" with
    | none => simp [specFieldError, requiredFields, phoneBad, requiredFails, h]
    | some v =>
      cases hb : (!pyIsdigit (cleanPhone v) || (cleanPhone v).length != 10) with
      | true => simp [specFieldError, requiredFields, phoneBad, h, hb]
      | false =>
        have hdig : pyIsdigit (cleanPhone v) = true := by
          rcases Bool.or_eq_false_iff.mp hb with ⟨h1, _⟩
          simpa using h1
        have hrf : requiredFails data "phone" = false := by
          simp only [requiredFails, h]
          exact beq_eq_false_iff_ne.mpr (pyStrip_ne_empty_of_pyIsdigit v hdig)
        simp [specFieldError, requiredFields, phoneBad, h, hb, hrf]
  · simp [specFieldError, requiredFields]
  · simp [specFieldError, requiredFields]
  · simp [specFieldError, requiredFields]

theorem dict_eq_nil_of_all_none {α : Type} (l : List (String × α))
    (h : ∀ k, dictGet l k = none) : l = [] := by
  cases l with
  | nil => rfl
  | cons p t =>
    have hx := h p.1
    rw [dictGet_head] at hx
    exact absurd hx (by simp)

/-- C4 as stated is false: with `email` present but blank (so required
fails after trimming) and every other field valid, the validator reports
`"Invalid email format"` for email — the later format check overwrites
the required-field message — not `"email is required"`. -/
theorem claim_C4_counterexample :
    validate_booking_data
        [("name", "Alice"), ("email", " "), ("phone", "9876543210"),
         ("carModel", "Nexon"), ("preferredDate", "2025-01-01"), ("preferredTime", "10:00")]
      = some [("email", "Invalid email format")]
    ∧ ("Invalid email format" : String) ≠ "email is required" := by
  exact ⟨by decide, by decide⟩

/-- C4 amended: the validator checks all fields (an invalid field is
reported independently of the others, and only required fields are ever
reported), each required field that is absent or blank after trimming
carries exactly the per-field message of `specFieldError` — which is
`"<field> is required"` except that a present-but-invalid `email` or
`phone` is overwritten by its format message — and the no-errors
sentinel is returned exactly when no field is invalid. -/
theorem claim_C4_validator_characterization (data : Payload) :
    (∀ f ∈ requiredFields, dictGet (rawErrors data) f = specFieldError data f)
    ∧ (∀ f, f ∉ requiredFields → dictGet (rawErrors data) f = none)
    ∧ (validate_booking_data data = none
        ↔ ∀ f ∈ requiredFields, specFieldError data f = none) := by
  refine ⟨fun f hf => dictGet_rawErrors_of_mem data f hf,
    fun f hf => dictGet_rawErrors_of_not_mem data f hf, ?_, ?_⟩
  · intro hv f hf
    have hemp : rawErrors data = [] := by
      by_contra hne
      have hie : (rawErrors data).isEmpty = false := by
        simpa [List.isEmpty_iff] using hne
      simp [validate_booking_data, hie] at hv
    have hch := dictGet_rawErrors_of_mem data f hf
    rw [hemp] at hch
    have h0 : dictGet ([] : List (String × String)) f = none := rfl
    rw [h0] at hch
    exact hch.symm
  · intro hall
    have hemp : rawErrors data = [] := by
      apply dict_eq_nil_of_all_none
      intro k
      by_cases hk : k ∈ requiredFields
      · rw [dictGet_rawErrors_of_mem data k hk, hall k hk]
      · exact dictGet_rawErrors_of_not_mem data k hk
    simp [validate_booking_data, hemp]

/-- Witness for the amended C4 on a concrete payload. -/
theorem claim_C4_validator_characterization_witness :
    dictGet (rawErrors [("name", "A")]) "email" = specFieldError [("name", "A")] "email" :=
  (claim_C4_validator_characterization [("name", "A")]).1 "email" (by decide)

theorem phoneCheck_false_iff (s : String) :
    (!pyIsdigit s || s.length != 10) = false ↔ tenAsciiDigits s := by
  constructor
  · intro h
    rcases Bool.or_eq_false_iff.mp h with ⟨h1, h2⟩
    have hdig : pyIsdigit s = true := by simpa using h1
    have hlen : s.length = 10 := by simpa using h2
    refine ⟨hlen, ?_⟩
    intro c hc
    have hall : s.toList.all Char.isDigit = true := by
      have hp := hdig
      simp only [pyIsdigit, Bool.and_eq_true] at hp
      exact hp.2
    rw [List.all_eq_true] at hall
    exact (isDigit_iff_ascii c).mp (hall c hc)
  · rintro ⟨hlen, hall⟩
    have htl : s.toList.length = 10 := hlen
    have hne : s.toList.isEmpty = false := by
      cases hl : s.toList with
      | nil => rw [hl] at htl; simp at htl
      | cons a t => simp
    have hdig : pyIsdigit s = true := by
      simp only [pyIsdigit, hne, Bool.not_false, Bool.true_and, List.all_eq_true]
      intro c hc
      exact (isDigit_iff_ascii c).mpr (hall c hc)
    simp [hdig, hlen]

/-- C6: for every payload containing a `phone` field, phone validation
succeeds exactly when the phone, after removing hyphens and spaces,
consists of exactly 10 ASCII digits; otherwise the phone error is
`"Phone must be 10 digits"`. -/
theorem claim_C6_phone_validation (data : Payload) (v : String)
    (h : dictGet data "phone" = some v) :
    (dictGet (rawErrors data) "phone" = none ↔ tenAsciiDigits (cleanPhone v))
    ∧ (¬tenAsciiDigits (cleanPhone v) →
        dictGet (rawErrors data) "phone" = some "Phone must be 10 digits") := by
  have hc := dictGet_rawErrors_of_mem data "phone" (by simp [requiredFields])
  rw [hc]
  have hspec : specFieldError data "phone"
      = if !pyIsdigit (cleanPhone v) || (cleanPhone v).length != 10
        then some "Phone must be 10 digits" else none := by
    simp [specFieldError, h]
  rw [hspec]
  cases hb : (!pyIsdigit (cleanPhone v) || (cleanPhone v).length != 10) with
  | false =>
    have hten := (phoneCheck_false_iff (cleanPhone v)).mp hb
    simp [hten]
  | true =>
    have hnten : ¬tenAsciiDigits (cleanPhone v) := by
      intro ht
      rw [← phoneCheck_false_iff] at ht
      rw [hb] at ht
      exact Bool.noConfusion ht
    simp [hnten]

/-- Witness for C6: a hyphenated 10-digit phone passes validation. -/
theorem claim_C6_phone_validation_witness :
    dictGet (rawErrors [("name", "A"), ("email", "a@b.c"), ("phone", "987-654-3210"),
        ("carModel", "X"), ("preferredDate", "D"), ("preferredTime", "T")]) "phone" = none :=
  ((claim_C6_phone_validation
      [("name", "A"), ("email", "a@b.c"), ("phone", "987-654-3210"),
       ("carModel", "X"), ("preferredDate", "D"), ("preferredTime", "T")]
      "987-654-3210" (by decide)).1).mpr (by decide)

end CarShowroom
